import Mathlib

/-!
Verification of the task-management client (auth store, task list, uploads,
messaging, notifications, theme toggle) against its specification.

Each definition is a shallow embedding of the corresponding TypeScript
function; external service calls (auth endpoint, table queries, storage,
the browser timer queue and local storage) are modelled by explicit
environments and event traces.
-/

set_option maxHeartbeats 1000000

namespace TaskApp

/-- User roles as in the profiles table. -/
inductive Role where
  | admin
  | manager
  | worker
deriving DecidableEq, Repr

/-- Kinds of thrown errors distinguished by the auth store's catch blocks
(instanceof AuthError, instanceof PostgrestError, plain Error). -/
inductive JsErrorKind where
  | authErr
  | postgrestErr
  | plainErr
deriving DecidableEq, Repr

/-- A thrown error: its instanceof class and its message. -/
structure JsError where
  kind : JsErrorKind
  message : String
deriving DecidableEq, Repr

/-- The profile row inserted by signUp. -/
structure ProfileRow where
  id : String
  full_name : String
  role : Role
deriving DecidableEq, Repr

/-- Observable side effects of the auth flows. deleteAuthUser is in the
vocabulary so that the absence of a compensating rollback is expressible;
the code never performs it. -/
inductive AuthEvent where
  | profileFetch (attempt : Nat)
  | profileInsert (row : ProfileRow)
  | delayMs (ms : Nat)
  | signOutCall
  | deleteAuthUser
deriving DecidableEq, Repr

/-- needle starts the hay list (character-wise equality). -/
def startsWithList : List Char → List Char → Bool
  | [], _ => true
  | _ :: _, [] => false
  | a :: as, b :: bs => a == b && startsWithList as bs

/-- needle occurs contiguously inside hay, as the JS includes method. -/
def containsList : List Char → List Char → Bool
  | needle, [] => needle.isEmpty
  | needle, c :: rest => startsWithList needle (c :: rest) || containsList needle rest

/-- JS s.includes(needle) on strings. -/
def strContains (hay needle : String) : Bool :=
  containsList needle.data hay.data

/-- Result of the signIn flow: the ordered effect trace, the store's user
field afterwards, and the error surfaced to the caller (none on success). -/
structure SignInResult where
  events : List AuthEvent
  user : Option ProfileRow
  thrown : Option JsError
deriving DecidableEq, Repr

/-- The profile-fetch retry loop shared by signIn (AppSettingStore.ts lines
146-192): at most maxRetries attempts, on failure the retry counter is
incremented and, when another attempt remains, a 1000 * retryCount ms
delay is awaited. Returns the effect trace, the fetched profile if any,
and the error recorded by the last failed attempt. -/
def profileRetry (fetch : Nat → Except JsError ProfileRow) (maxRetries : Nat)
    (retryCount : Nat) : List AuthEvent × Option ProfileRow × Option JsError :=
  if _h : retryCount < maxRetries then
    match fetch retryCount with
    | Except.ok p => ([AuthEvent.profileFetch retryCount], some p, none)
    | Except.error e =>
        let rc := retryCount + 1
        if rc < maxRetries then
          let rest := profileRetry fetch maxRetries rc
          (AuthEvent.profileFetch retryCount :: AuthEvent.delayMs (1000 * rc) :: rest.1,
           rest.2.1,
           match rest.2.2 with
           | some x => some x
           | none => some e)
        else
          ([AuthEvent.profileFetch retryCount], none, some e)
  else ([], none, none)
termination_by maxRetries - retryCount
decreasing_by omega

/-- The outer catch block of signIn (lines 206-228): sign the session out,
clear the user, translate recognised AuthError and PostgrestError values,
rethrow everything else. -/
def signInCatch (evs : List AuthEvent) (e : JsError) : SignInResult :=
  let thrown :=
    match e.kind with
    | JsErrorKind.authErr =>
        if strContains e.message "Invalid login credentials" then
          ({ kind := JsErrorKind.plainErr, message := "Invalid email or password" } : JsError)
        else e
    | JsErrorKind.postgrestErr =>
        ({ kind := JsErrorKind.plainErr, message := "Database error occurred" } : JsError)
    | JsErrorKind.plainErr => e
  { events := evs ++ [AuthEvent.signOutCall], user := none, thrown := some thrown }

/-- signIn (AppSettingStore.ts lines 129-229). auth is the outcome of
signInWithPassword: an error, or the session user id (none when no session
came back); fetch gives the outcome of each profile-fetch attempt. -/
def signIn (auth : Except JsError (Option String))
    (fetch : Nat → Except JsError ProfileRow) : SignInResult :=
  match auth with
  | Except.error e => signInCatch [] e
  | Except.ok none =>
      signInCatch [] { kind := JsErrorKind.plainErr, message := "No session after sign in" }
  | Except.ok (some _uid) =>
      let r := profileRetry fetch 3 0
      match r.2.1 with
      | some p => { events := r.1, user := some p, thrown := none }
      | none =>
          let msg := match r.2.2 with
            | some e => if e.message = "" then "Failed to load profile" else e.message
            | none => "Failed to load profile"
          signInCatch (r.1 ++ [AuthEvent.signOutCall])
            { kind := JsErrorKind.plainErr, message := msg }

/-- Result of the signUp flow: effect trace and surfaced error. -/
structure SignUpResult where
  events : List AuthEvent
  thrown : Option JsError
deriving DecidableEq, Repr

/-- The profile-insert retry loop of signUp (lines 250-292): at most
maxRetries insert attempts of the same row; success returns immediately,
a failure increments the counter and waits 1000 * retryCount ms when an
attempt remains. Returns the trace, a success flag, and the last error. -/
def profileInsertLoop (ins : Nat → Option JsError) (row : ProfileRow)
    (maxRetries : Nat) (retryCount : Nat) : List AuthEvent × Bool × Option JsError :=
  if _h : retryCount < maxRetries then
    match ins retryCount with
    | none => ([AuthEvent.profileInsert row], true, none)
    | some e =>
        let rc := retryCount + 1
        if rc < maxRetries then
          let rest := profileInsertLoop ins row maxRetries rc
          (AuthEvent.profileInsert row :: AuthEvent.delayMs (1000 * rc) :: rest.1,
           rest.2.1,
           match rest.2.2 with
           | some x => some x
           | none => some e)
        else
          ([AuthEvent.profileInsert row], false, some e)
  else ([], false, none)
termination_by maxRetries - retryCount
decreasing_by omega

/-- The outer catch block of signUp (lines 304-313): translate the
already-registered AuthError, rethrow everything else, touch nothing. -/
def signUpCatch (evs : List AuthEvent) (e : JsError) : SignUpResult :=
  let thrown :=
    match e.kind with
    | JsErrorKind.authErr =>
        if strContains e.message "User already registered" then
          ({ kind := JsErrorKind.plainErr, message := "Email already registered" } : JsError)
        else e
    | _ => e
  { events := evs, thrown := some thrown }

/-- signUp (AppSettingStore.ts lines 231-314). auth is the outcome of the
auth.signUp call (error, or created user id, none when no user came back);
ins gives each profile-insert attempt's outcome (none = inserted). -/
def signUp (auth : Except JsError (Option String)) (ins : Nat → Option JsError)
    (fullName : String) : SignUpResult :=
  match auth with
  | Except.error e => signUpCatch [] e
  | Except.ok none =>
      signUpCatch [] { kind := JsErrorKind.plainErr, message := "No user data after sign up" }
  | Except.ok (some uid) =>
      let row : ProfileRow := { id := uid, full_name := fullName, role := Role.worker }
      let r := profileInsertLoop ins row 3 0
      if r.2.1 then { events := r.1, thrown := none }
      else
        let msg := match r.2.2 with
          | some e => if e.message = "" then "Failed to create profile" else e.message
          | none => "Failed to create profile"
        signUpCatch r.1 { kind := JsErrorKind.plainErr, message := msg }

/-- Unfolding of the three-attempt profile fetch when every attempt fails:
the trace shows the 1000 ms and 2000 ms backoff delays and the last
attempt's error is the one recorded. -/
theorem profileRetry_three_failures (fetch : Nat → Except JsError ProfileRow)
    (e0 e1 e2 : JsError) (h0 : fetch 0 = Except.error e0)
    (h1 : fetch 1 = Except.error e1) (h2 : fetch 2 = Except.error e2) :
    profileRetry fetch 3 0 =
      ([AuthEvent.profileFetch 0, AuthEvent.delayMs 1000, AuthEvent.profileFetch 1,
        AuthEvent.delayMs 2000, AuthEvent.profileFetch 2], none, some e2) := by
  have l2 : profileRetry fetch 3 2 = ([AuthEvent.profileFetch 2], none, some e2) := by
    rw [profileRetry]; simp [h2]
  have l1 : profileRetry fetch 3 1 =
      ([AuthEvent.profileFetch 1, AuthEvent.delayMs 2000, AuthEvent.profileFetch 2],
       none, some e2) := by
    rw [profileRetry]; simp [h1, l2]
  rw [profileRetry]; simp [h0, l1]

/-- C1: if authentication succeeds but every one of the 3 profile-fetch
attempts fails, signIn signs the session out before surfacing the failure
(no user is retained), throws the error message of the last failed attempt,
and the retries are separated by 1000 * retryCount ms delays. -/
theorem c1_signIn_all_fetch_failures (uid : String)
    (fetch : Nat → Except JsError ProfileRow) (e0 e1 e2 : JsError)
    (h0 : fetch 0 = Except.error e0) (h1 : fetch 1 = Except.error e1)
    (h2 : fetch 2 = Except.error e2) (hm : e2.message ≠ "") :
    signIn (Except.ok (some uid)) fetch =
      { events := [AuthEvent.profileFetch 0, AuthEvent.delayMs 1000,
                   AuthEvent.profileFetch 1, AuthEvent.delayMs 2000,
                   AuthEvent.profileFetch 2, AuthEvent.signOutCall, AuthEvent.signOutCall],
        user := none,
        thrown := some { kind := JsErrorKind.plainErr, message := e2.message } } := by
  simp [signIn, profileRetry_three_failures fetch e0 e1 e2 h0 h1 h2, signInCatch, hm]

/-- Witness for C1 at a concrete environment: auth succeeds and all three
fetch attempts fail with a database error. -/
theorem c1_witness :
    signIn (Except.ok (some "u1"))
        (fun _ => Except.error { kind := JsErrorKind.postgrestErr, message := "boom" }) =
      { events := [AuthEvent.profileFetch 0, AuthEvent.delayMs 1000,
                   AuthEvent.profileFetch 1, AuthEvent.delayMs 2000,
                   AuthEvent.profileFetch 2, AuthEvent.signOutCall, AuthEvent.signOutCall],
        user := none,
        thrown := some { kind := JsErrorKind.plainErr, message := "boom" } } :=
  c1_signIn_all_fetch_failures "u1"
    (fun _ => Except.error { kind := JsErrorKind.postgrestErr, message := "boom" })
    { kind := JsErrorKind.postgrestErr, message := "boom" }
    { kind := JsErrorKind.postgrestErr, message := "boom" }
    { kind := JsErrorKind.postgrestErr, message := "boom" }
    rfl rfl rfl (by decide)

/-- Unfolding of the three-attempt profile insert when every attempt fails. -/
theorem profileInsertLoop_three_failures (ins : Nat → Option JsError) (row : ProfileRow)
    (e0 e1 e2 : JsError) (h0 : ins 0 = some e0) (h1 : ins 1 = some e1)
    (h2 : ins 2 = some e2) :
    profileInsertLoop ins row 3 0 =
      ([AuthEvent.profileInsert row, AuthEvent.delayMs 1000, AuthEvent.profileInsert row,
        AuthEvent.delayMs 2000, AuthEvent.profileInsert row], false, some e2) := by
  have l2 : profileInsertLoop ins row 3 2 = ([AuthEvent.profileInsert row], false, some e2) := by
    rw [profileInsertLoop]; simp [h2]
  have l1 : profileInsertLoop ins row 3 1 =
      ([AuthEvent.profileInsert row, AuthEvent.delayMs 2000, AuthEvent.profileInsert row],
       false, some e2) := by
    rw [profileInsertLoop]; simp [h1, l2]
  rw [profileInsertLoop]; simp [h0, l1]

/-- C3: when the auth identity is created but all 3 profile-insert attempts
fail, signUp surfaces the last attempt's error and its effect trace holds
no deletion of the auth identity (only the inserts and the backoff delays). -/
theorem c3_signUp_no_rollback (uid fullName : String) (ins : Nat → Option JsError)
    (e0 e1 e2 : JsError) (h0 : ins 0 = some e0) (h1 : ins 1 = some e1)
    (h2 : ins 2 = some e2) (hm : e2.message ≠ "") :
    (signUp (Except.ok (some uid)) ins fullName).thrown =
        some { kind := JsErrorKind.plainErr, message := e2.message } ∧
      AuthEvent.deleteAuthUser ∉ (signUp (Except.ok (some uid)) ins fullName).events := by
  have hloop := profileInsertLoop_three_failures ins
    { id := uid, full_name := fullName, role := Role.worker } e0 e1 e2 h0 h1 h2
  constructor
  · simp [signUp, hloop, signUpCatch, hm]
  · simp [signUp, hloop, signUpCatch, hm]

/-- Witness for C3 at a concrete environment: auth identity created, all
three profile inserts fail. -/
theorem c3_witness :
    (signUp (Except.ok (some "u2"))
        (fun _ => some { kind := JsErrorKind.postgrestErr, message := "dup" }) "Ann").thrown =
        some { kind := JsErrorKind.plainErr, message := "dup" } ∧
      AuthEvent.deleteAuthUser ∉
        (signUp (Except.ok (some "u2"))
          (fun _ => some { kind := JsErrorKind.postgrestErr, message := "dup" }) "Ann").events :=
  c3_signUp_no_rollback "u2" "Ann"
    (fun _ => some { kind := JsErrorKind.postgrestErr, message := "dup" })
    { kind := JsErrorKind.postgrestErr, message := "dup" }
    { kind := JsErrorKind.postgrestErr, message := "dup" }
    { kind := JsErrorKind.postgrestErr, message := "dup" }
    rfl rfl rfl (by decide)

/-- Every profile row the insert loop writes is the one row it was given. -/
theorem profileInsertLoop_rows (ins : Nat → Option JsError) (row r : ProfileRow) :
    ∀ fuel maxRetries retryCount, maxRetries - retryCount ≤ fuel →
    AuthEvent.profileInsert r ∈ (profileInsertLoop ins row maxRetries retryCount).1 →
    r = row := by
  intro fuel
  induction fuel with
  | zero =>
      intro maxRetries retryCount hle h
      rw [profileInsertLoop] at h
      rw [dif_neg (by omega)] at h
      simp at h
  | succ n ih =>
      intro maxRetries retryCount hle h
      rw [profileInsertLoop] at h
      by_cases hc : retryCount < maxRetries
      · rw [dif_pos hc] at h
        cases hins : ins retryCount with
        | none =>
            rw [hins] at h
            simpa using h
        | some e =>
            rw [hins] at h
            by_cases hc2 : retryCount + 1 < maxRetries
            · simp only [hc2, if_true, List.mem_cons] at h
              rcases h with h | h | h
              · simpa using h
              · simp at h
              · exact ih maxRetries (retryCount + 1) (by omega) h
            · simp only [hc2, if_false] at h
              simpa using h
      · rw [dif_neg hc] at h
        simp at h

/-- The effect trace of signUp after a created auth identity is exactly the
insert loop's trace (both the success return and the post-loop throw pass
it through unchanged). -/
theorem signUp_events (uid fullName : String) (ins : Nat → Option JsError) :
    (signUp (Except.ok (some uid)) ins fullName).events =
      (profileInsertLoop ins { id := uid, full_name := fullName, role := Role.worker } 3 0).1 := by
  simp only [signUp]
  split <;> simp [signUpCatch]

/-- C10: every profile row signUp ever inserts has role worker, so a new
sign-up can never produce an admin or manager profile. -/
theorem c10_signUp_role_worker (auth : Except JsError (Option String))
    (ins : Nat → Option JsError) (fullName : String) (row : ProfileRow)
    (h : AuthEvent.profileInsert row ∈ (signUp auth ins fullName).events) :
    row.role = Role.worker ∧ row.role ≠ Role.admin ∧ row.role ≠ Role.manager := by
  have hrole : row.role = Role.worker := by
    cases auth with
    | error e => simp [signUp, signUpCatch] at h
    | ok o =>
        cases o with
        | none => simp [signUp, signUpCatch] at h
        | some uid =>
            rw [signUp_events] at h
            have := profileInsertLoop_rows ins
              { id := uid, full_name := fullName, role := Role.worker } row 3 3 0 (by omega) h
            rw [this]
  refine ⟨hrole, ?_, ?_⟩ <;> rw [hrole] <;> intro hcontra <;> cases hcontra

/-- Witness for C10: a concrete sign-up whose single successful insert
writes a worker row. -/
theorem c10_witness :
    ({ id := "u3", full_name := "Bob", role := Role.worker } : ProfileRow).role = Role.worker ∧
      ({ id := "u3", full_name := "Bob", role := Role.worker } : ProfileRow).role ≠ Role.admin ∧
      ({ id := "u3", full_name := "Bob", role := Role.worker } : ProfileRow).role ≠ Role.manager :=
  c10_signUp_role_worker (Except.ok (some "u3")) (fun _ => none) "Bob" _ (by
    rw [signUp_events, profileInsertLoop]
    simp)

/-- A row of the notifications table (the fields the dropdown touches). -/
structure NotificationRow where
  id : String
  user_id : String
  content : String
  read : Bool
deriving DecidableEq, Repr

/-- Table semantics of an update statement with a row filter: every row
matching the filter is replaced by its updated image, the rest stay. -/
def updateWhere {α : Type} (p : α → Bool) (f : α → α) (table : List α) : List α :=
  table.map fun x => if p x then f x else x

/-- The update issued by markAsRead (NotificationsDropdown.tsx lines 62-69):
set read true on the rows whose id equals the given notification id. -/
def markAsReadUpdate (nid : String) (table : List NotificationRow) : List NotificationRow :=
  updateWhere (fun n => n.id == nid) (fun n => { n with read := true }) table

/-- The local list patch of markAsRead (lines 71-78). -/
def markAsReadLocal (nid : String) (l : List NotificationRow) : List NotificationRow :=
  l.map fun n => if n.id == nid then { n with read := true } else n

/-- C5: markAsRead sets read on the notification with the given id and
leaves every other notification untouched, and the issued update and the
local patch agree row for row. -/
theorem c5_markAsRead_frame (nid : String) (l : List NotificationRow) :
    markAsReadUpdate nid l = markAsReadLocal nid l ∧
    ∀ (i : Nat) (n : NotificationRow), l[i]? = some n →
      (n.id ≠ nid → (markAsReadLocal nid l)[i]? = some n) ∧
      (n.id = nid → (markAsReadLocal nid l)[i]? = some { n with read := true }) := by
  refine ⟨rfl, ?_⟩
  intro i n hn
  have hmap : (markAsReadLocal nid l)[i]? =
      some (if n.id == nid then { n with read := true } else n) := by
    simp [markAsReadLocal, List.getElem?_map, hn]
  constructor
  · intro hne
    rw [hmap, if_neg (by simpa using hne)]
  · intro heq
    rw [hmap, if_pos (by simpa using heq)]

/-- Witness for C5: marking n1 read leaves n2 untouched and sets n1. -/
theorem c5_witness :
    (markAsReadLocal "n1"
        [{ id := "n1", user_id := "u", content := "a", read := false },
         { id := "n2", user_id := "u", content := "b", read := false }])[1]? =
      some { id := "n2", user_id := "u", content := "b", read := false } :=
  ((c5_markAsRead_frame "n1"
      [{ id := "n1", user_id := "u", content := "a", read := false },
       { id := "n2", user_id := "u", content := "b", read := false }]).2 1
    { id := "n2", user_id := "u", content := "b", read := false } rfl).1 (by decide)

/-- A row of the messages table (the fields fetchMessages touches). -/
structure MessageRow where
  id : String
  sender_id : String
  receiver_id : String
  content : String
  read : Bool
deriving DecidableEq, Repr

/-- The update issued after fetching a conversation (part_007 lines 83-89):
set read true on rows with receiver_id = current user, sender_id = selected
contact and read = false. -/
def markConversationRead (uid contactId : String) (table : List MessageRow) : List MessageRow :=
  updateWhere
    (fun m => m.receiver_id == uid && m.sender_id == contactId && m.read == false)
    (fun m => { m with read := true }) table

/-- C6: viewing a conversation marks exactly the unread messages from the
selected contact to the current user as read; already-read conversation
messages and all messages outside the sender/receiver pair are unmodified. -/
theorem c6_markConversationRead (uid cid : String) (table : List MessageRow) :
    ∀ (i : Nat) (m : MessageRow), table[i]? = some m →
      (m.sender_id = cid → m.receiver_id = uid → m.read = false →
        (markConversationRead uid cid table)[i]? = some { m with read := true }) ∧
      (m.sender_id = cid → m.receiver_id = uid →
        ∀ (m' : MessageRow), (markConversationRead uid cid table)[i]? = some m' → m'.read = true) ∧
      (¬(m.sender_id = cid ∧ m.receiver_id = uid ∧ m.read = false) →
        (markConversationRead uid cid table)[i]? = some m) := by
  intro i m hm
  have hmap : (markConversationRead uid cid table)[i]? =
      some (if m.receiver_id == uid && m.sender_id == cid && m.read == false
            then { m with read := true } else m) := by
    simp [markConversationRead, updateWhere, List.getElem?_map, hm]
  refine ⟨?_, ?_, ?_⟩
  · intro hs hr hu
    rw [hmap, if_pos (by simp [hs, hr, hu])]
  · intro hs hr m' hm'
    rw [hmap] at hm'
    by_cases hu : m.read = false
    · rw [if_pos (by simp [hs, hr, hu])] at hm'
      cases hm'
      rfl
    · rw [if_neg (by simp [hu])] at hm'
      cases hm'
      simpa using hu
  · intro hother
    rw [hmap, if_neg ?_]
    simp only [Bool.and_eq_true, beq_iff_eq]
    intro hcontra
    exact hother ⟨hcontra.1.2, hcontra.1.1, by simpa using hcontra.2⟩

/-- Witness for C6: the unread message from the contact is set read, the
message going the other way is untouched. -/
theorem c6_witness :
    (markConversationRead "me" "them"
        [{ id := "m1", sender_id := "them", receiver_id := "me", content := "hi", read := false },
         { id := "m2", sender_id := "me", receiver_id := "them", content := "yo", read := false }])[0]? =
      some { id := "m1", sender_id := "them", receiver_id := "me", content := "hi", read := true } :=
  ((c6_markConversationRead "me" "them"
      [{ id := "m1", sender_id := "them", receiver_id := "me", content := "hi", read := false },
       { id := "m2", sender_id := "me", receiver_id := "them", content := "yo", read := false }]) 0
    { id := "m1", sender_id := "them", receiver_id := "me", content := "hi", read := false }
    rfl).1 rfl rfl rfl

/-- The theme toggle's state: the in-memory darkMode flag and the value
stored under the darkMode key in local storage (none when absent). -/
structure ThemeState where
  darkMode : Bool
  storage : Option String
deriving DecidableEq, Repr

/-- JS String(boolean) as written to local storage. -/
def boolToStorage (b : Bool) : String := if b then "true" else "false"

/-- The mount-time read: localStorage.getItem of darkMode compared to the
string true (ThemeToggle, NotificationsDropdown.tsx lines 239-249). -/
def readStoredDarkMode (st : Option String) : Bool := st == some "true"

/-- toggleDarkMode (lines 251-263): flip the flag and persist its string. -/
def toggleDarkMode (s : ThemeState) : ThemeState :=
  let nd := !s.darkMode
  { darkMode := nd, storage := some (boolToStorage nd) }

/-- A simulated reload re-runs the mount effect against the storage. -/
def reloadTheme (s : ThemeState) : ThemeState :=
  { s with darkMode := readStoredDarkMode s.storage }

/-- n successive toggle clicks. -/
def applyToggles : Nat → ThemeState → ThemeState
  | 0, s => s
  | n + 1, s => applyToggles n (toggleDarkMode s)

/-- After at least one toggle the storage holds exactly the string form of
the current flag. -/
theorem applyToggles_storage (s : ThemeState) :
    ∀ n, 0 < n →
      (applyToggles n s).storage = some (boolToStorage (applyToggles n s).darkMode) := by
  intro n
  induction n generalizing s with
  | zero => intro h; exact absurd h (by omega)
  | succ m ih =>
      intro _
      cases m with
      | zero => simp [applyToggles, toggleDarkMode]
      | succ k =>
          have := ih (s := toggleDarkMode s) (by omega)
          simpa [applyToggles] using this

/-- C7: for every initial state and every positive number of dark-mode
toggles, the flag read back from storage on reload equals the flag as last
set, so dark mode survives the simulated reload. -/
theorem c7_darkMode_roundtrip (s : ThemeState) (n : Nat) (hn : 0 < n) :
    (reloadTheme (applyToggles n s)).darkMode = (applyToggles n s).darkMode := by
  rw [reloadTheme]
  rw [applyToggles_storage s n hn]
  cases hb : (applyToggles n s).darkMode <;> simp [readStoredDarkMode, boolToStorage, hb]

/-- Witness for C7: three toggles from a fresh state round-trip. -/
theorem c7_witness :
    (reloadTheme (applyToggles 3 { darkMode := false, storage := none })).darkMode =
      (applyToggles 3 { darkMode := false, storage := none }).darkMode :=
  c7_darkMode_roundtrip { darkMode := false, storage := none } 3 (by decide)

/-- Task status values. -/
inductive TaskStatus where
  | pending
  | in_progress
  | completed
deriving DecidableEq, Repr

/-- Task priority values. -/
inductive TaskPriority where
  | low
  | medium
  | high
deriving DecidableEq, Repr

/-- A task row with the fields the task list reads. Timestamps are epoch
milliseconds as produced by getTime. -/
structure Task where
  id : String
  title : String
  description : Option String
  status : TaskStatus
  priority : TaskPriority
  created_by : String
  assigned_to : Option String
  created_at : Nat
  due_date : Option Nat
deriving DecidableEq, Repr

/-- The query built by fetchTasks (part_008 lines 40-53): an unrestricted
select, narrowed by an or filter on assigned_to and created_by exactly when
the user is neither admin nor manager. -/
def fetchTasksVisible (uid : String) (role : Role) (table : List Task) : List Task :=
  if role ≠ Role.admin ∧ role ≠ Role.manager then
    table.filter fun t => t.assigned_to == some uid || t.created_by == uid
  else table

/-- C8: a user who is neither admin nor manager only receives tasks they
created or are assigned to; an admin or manager receives the whole table. -/
theorem c8_fetchTasks_role_scope (uid : String) (role : Role) (table : List Task) :
    ((role ≠ Role.admin ∧ role ≠ Role.manager) →
      ∀ t ∈ fetchTasksVisible uid role table, t.created_by = uid ∨ t.assigned_to = some uid) ∧
    ((role = Role.admin ∨ role = Role.manager) → fetchTasksVisible uid role table = table) := by
  constructor
  · intro hrole t ht
    rw [fetchTasksVisible, if_pos hrole] at ht
    rcases List.mem_filter.mp ht with ⟨_, hcond⟩
    rcases Bool.or_eq_true_iff.mp hcond with h | h
    · exact Or.inr (by simpa using h)
    · exact Or.inl (by simpa using h)
  · intro hrole
    rw [fetchTasksVisible, if_neg ?_]
    rcases hrole with h | h <;> simp [h]

/-- Witness for C8: a worker sees only their own or assigned tasks; the
single foreign task is filtered out, and an admin sees everything. -/
theorem c8_witness :
    (∀ t ∈ fetchTasksVisible "w1" Role.worker
        [{ id := "t1", title := "a", description := none, status := TaskStatus.pending,
           priority := TaskPriority.low, created_by := "w1", assigned_to := none,
           created_at := 0, due_date := none }],
        t.created_by = "w1" ∨ t.assigned_to = some "w1") ∧
      fetchTasksVisible "w1" Role.admin
        [{ id := "t1", title := "a", description := none, status := TaskStatus.pending,
           priority := TaskPriority.low, created_by := "w2", assigned_to := none,
           created_at := 0, due_date := none }] =
        [{ id := "t1", title := "a", description := none, status := TaskStatus.pending,
           priority := TaskPriority.low, created_by := "w2", assigned_to := none,
           created_at := 0, due_date := none }] :=
  ⟨(c8_fetchTasks_role_scope "w1" Role.worker _).1 (by decide),
   (c8_fetchTasks_role_scope "w1" Role.admin _).2 (Or.inl rfl)⟩

/-- Per-file backend behaviour for an attachment upload: outcome of the
storage upload, and whether the follow-up metadata insert (whose error
both call sites ignore) writes its row. -/
structure UploadEnv where
  uploadErr : Option JsError
  insertOk : Bool
deriving DecidableEq, Repr

/-- The sequential upload loop of TaskDetailsModal.uploadFiles (part_001
lines 244-282): files are processed in order, a storage failure throws out
of the loop so later files are never attempted, and a successful upload is
followed by the metadata insert. Returns the indices (from offset i) whose
metadata row was inserted and the surfaced error. -/
def uploadFilesSeqGo : List UploadEnv → Nat → List Nat × Option JsError
  | [], _ => ([], none)
  | e :: rest, i =>
      match e.uploadErr with
      | some err => ([], some err)
      | none =>
          let r := uploadFilesSeqGo rest (i + 1)
          ((if e.insertOk then [i] else []) ++ r.1, r.2)

/-- uploadFiles of TaskDetailsModal applied to the selected files. -/
def uploadFilesSeq (envs : List UploadEnv) : List Nat × Option JsError :=
  uploadFilesSeqGo envs 0

/-- The concurrent upload of CreateTaskModal.handleSubmit (lines 152-154
with uploadFile lines 88-117): Promise.all starts every file's uploadFile
call, a rejection does not cancel the siblings, so a file's metadata row
is written iff its own upload succeeded and its own insert succeeded. -/
def uploadFilesParGo : List UploadEnv → Nat → List Nat
  | [], _ => []
  | e :: rest, i =>
      (if e.uploadErr.isNone && e.insertOk then [i] else []) ++ uploadFilesParGo rest (i + 1)

/-- The error Promise.all rejects with: the first upload failure. -/
def firstUploadErr : List UploadEnv → Option JsError
  | [] => none
  | e :: rest =>
      match e.uploadErr with
      | some err => some err
      | none => firstUploadErr rest

/-- The CreateTaskModal upload applied to the selected files. -/
def uploadFilesPar (envs : List UploadEnv) : List Nat × Option JsError :=
  (uploadFilesParGo envs 0, firstUploadErr envs)

/-- Counterexample to C2 as stated: in the cited uploadFiles the files are
processed sequentially, so with two files where file 0's upload fails and
file 1 would individually succeed (upload and insert both fine), no
metadata row is inserted for file 1 — its upload is never issued. -/
theorem c2_counterexample :
    uploadFilesSeq
        [{ uploadErr := some { kind := JsErrorKind.plainErr, message := "net" }, insertOk := true },
         { uploadErr := none, insertOk := true }] =
      ([], some { kind := JsErrorKind.plainErr, message := "net" }) ∧
    (1 : Nat) ∉ (uploadFilesSeq
        [{ uploadErr := some { kind := JsErrorKind.plainErr, message := "net" }, insertOk := true },
         { uploadErr := none, insertOk := true }]).1 := by
  constructor
  · rfl
  · decide

/-- Behaviour of the sequential loop when the first upload failure sits
after a prefix of clean uploads: the surfaced error is that failure's and
exactly the prefix files with a successful insert have rows. -/
theorem uploadFilesSeqGo_spec (bad : UploadEnv) (err : JsError) (hbad : bad.uploadErr = some err) :
    ∀ (good rest : List UploadEnv), (∀ e ∈ good, e.uploadErr = none) →
    ∀ i : Nat,
      (uploadFilesSeqGo (good ++ bad :: rest) i).2 = some err ∧
      ∀ j : Nat, j ∈ (uploadFilesSeqGo (good ++ bad :: rest) i).1 ↔
        ∃ idx e, good[idx]? = some e ∧ e.insertOk = true ∧ j = i + idx := by
  intro good
  induction good with
  | nil =>
      intro rest _ i
      constructor
      · simp [uploadFilesSeqGo, hbad]
      · intro j
        simp [uploadFilesSeqGo, hbad]
  | cons g good' ih =>
      intro rest hgood i
      have hg : g.uploadErr = none := hgood g (by simp)
      have hgood' : ∀ e ∈ good', e.uploadErr = none := fun e he => hgood e (by simp [he])
      obtain ⟨iherr, ihmem⟩ := ih rest hgood' (i + 1)
      constructor
      · simpa [uploadFilesSeqGo, hg] using iherr
      · intro j
        have hsplit : j ∈ (uploadFilesSeqGo ((g :: good') ++ bad :: rest) i).1 ↔
            ((g.insertOk = true ∧ j = i) ∨
              j ∈ (uploadFilesSeqGo (good' ++ bad :: rest) (i + 1)).1) := by
          cases hins : g.insertOk <;> simp [uploadFilesSeqGo, hg, hins]
        rw [hsplit, ihmem]
        constructor
        · rintro (⟨hins, hj⟩ | ⟨idx, e, hidx, hins, hj⟩)
          · exact ⟨0, g, by simp, hins, by omega⟩
          · exact ⟨idx + 1, e, by simpa using hidx, hins, by omega⟩
        · rintro ⟨idx, e, hidx, hins, hj⟩
          cases idx with
          | zero =>
              left
              refine ⟨?_, by omega⟩
              simp at hidx
              rw [hidx]; exact hins
          | succ idx' =>
              right
              exact ⟨idx', e, by simpa using hidx, hins, by omega⟩

/-- Membership in the concurrent upload's inserted rows: exactly the files
whose own upload and insert succeed, independent of sibling failures. -/
theorem uploadFilesParGo_mem :
    ∀ (envs : List UploadEnv) (i j : Nat),
      j ∈ uploadFilesParGo envs i ↔
        ∃ idx e, envs[idx]? = some e ∧ e.uploadErr = none ∧ e.insertOk = true ∧ j = i + idx := by
  intro envs
  induction envs with
  | nil =>
      intro i j
      simp [uploadFilesParGo]
  | cons g rest ih =>
      intro i j
      have hsplit : j ∈ uploadFilesParGo (g :: rest) i ↔
          ((g.uploadErr = none ∧ g.insertOk = true ∧ j = i) ∨ j ∈ uploadFilesParGo rest (i + 1)) := by
        cases hup : g.uploadErr <;> cases hins : g.insertOk <;>
          simp [uploadFilesParGo, hup, hins]
      rw [hsplit, ih (i + 1) j]
      constructor
      · rintro (⟨hup, hins, hj⟩ | ⟨idx, e, hidx, hup, hins, hj⟩)
        · exact ⟨0, g, by simp, hup, hins, by omega⟩
        · exact ⟨idx + 1, e, by simpa using hidx, hup, hins, by omega⟩
      · rintro ⟨idx, e, hidx, hup, hins, hj⟩
        cases idx with
        | zero =>
            left
            simp at hidx
            rw [hidx]
            exact ⟨hup, hins, by omega⟩
        | succ idx' =>
            right
            exact ⟨idx', e, by simpa using hidx, hup, hins, by omega⟩

/-- C2 amended: in the Promise.all path a file's metadata row is inserted
iff its own upload and insert succeed, regardless of sibling failures; in
the sequential uploadFiles path, when the first upload failure is file k,
the rows are exactly those of the succeeding files before k (no rollback)
and files after k are never attempted, while the failure surfaces as the
loop's error. -/
theorem c2_amended_uploads (good rest : List UploadEnv) (bad : UploadEnv) (err : JsError)
    (hgood : ∀ e ∈ good, e.uploadErr = none) (hbad : bad.uploadErr = some err) :
    ((uploadFilesSeq (good ++ bad :: rest)).2 = some err ∧
      ∀ j : Nat, j ∈ (uploadFilesSeq (good ++ bad :: rest)).1 ↔
        ∃ e, good[j]? = some e ∧ e.insertOk = true) ∧
    ∀ (envs : List UploadEnv) (j : Nat),
      j ∈ (uploadFilesPar envs).1 ↔
        ∃ e, envs[j]? = some e ∧ e.uploadErr = none ∧ e.insertOk = true := by
  obtain ⟨herr, hmem⟩ := uploadFilesSeqGo_spec bad err hbad good rest hgood 0
  refine ⟨⟨herr, ?_⟩, ?_⟩
  · intro j
    rw [uploadFilesSeq, hmem j]
    constructor
    · rintro ⟨idx, e, hidx, hins, hj⟩
      exact ⟨e, by simpa [hj] using hidx, hins⟩
    · rintro ⟨e, hidx, hins⟩
      exact ⟨j, e, hidx, hins, by omega⟩
  · intro envs j
    rw [uploadFilesPar, uploadFilesParGo_mem envs 0 j]
    constructor
    · rintro ⟨idx, e, hidx, hup, hins, hj⟩
      exact ⟨e, by simpa [hj] using hidx, hup, hins⟩
    · rintro ⟨e, hidx, hup, hins⟩
      exact ⟨j, e, hidx, hup, hins, by omega⟩

/-- Witness for the amended C2: one clean file before the failing one keeps
its row in the sequential path, and in the concurrent path the file after
the failing one still gets its row. -/
theorem c2_witness :
    (0 : Nat) ∈ (uploadFilesSeq
        [{ uploadErr := none, insertOk := true },
         { uploadErr := some { kind := JsErrorKind.plainErr, message := "net" }, insertOk := true },
         { uploadErr := none, insertOk := true }]).1 ∧
    (2 : Nat) ∈ (uploadFilesPar
        [{ uploadErr := none, insertOk := true },
         { uploadErr := some { kind := JsErrorKind.plainErr, message := "net" }, insertOk := true },
         { uploadErr := none, insertOk := true }]).1 := by
  constructor
  · exact ((c2_amended_uploads [{ uploadErr := none, insertOk := true }]
        [{ uploadErr := none, insertOk := true }]
        { uploadErr := some { kind := JsErrorKind.plainErr, message := "net" }, insertOk := true }
        { kind := JsErrorKind.plainErr, message := "net" }
        (by simp) rfl).1.2 0).mpr ⟨{ uploadErr := none, insertOk := true }, rfl, rfl⟩
  · exact ((c2_amended_uploads [{ uploadErr := none, insertOk := true }]
        [{ uploadErr := none, insertOk := true }]
        { uploadErr := some { kind := JsErrorKind.plainErr, message := "net" }, insertOk := true }
        { kind := JsErrorKind.plainErr, message := "net" }
        (by simp) rfl).2
        [{ uploadErr := none, insertOk := true },
         { uploadErr := some { kind := JsErrorKind.plainErr, message := "net" }, insertOk := true },
         { uploadErr := none, insertOk := true }] 2).mpr
      ⟨{ uploadErr := none, insertOk := true }, rfl, rfl, rfl⟩

/-- Operational model of the debounced search effect (part_001 lines
120-147, part_007 lines 98-125, CreateTaskModal lines 33-59): each
keystroke's effect run clears the pending 300 ms timer and schedules a new
one; a pending timer fires, issuing one query, when its deadline is not
later than the next keystroke; the final pending timer fires unopposed.
Keystroke times are processed in order; the result is the list of times at
which a search query is issued. -/
def debounceRun (delay : Nat) : List Nat -> Option Nat -> List Nat
  | [], none => []
  | [], some t => [t]
  | k :: ks, none => debounceRun delay ks (some (k + delay))
  | k :: ks, some t => (if t <= k then [t] else []) ++ debounceRun delay ks (some (k + delay))

/-- Declarative reading of the spec sentence: one query fires delay ms
after exactly those keystrokes that open a quiet period (no further
keystroke within delay ms), including the last keystroke. -/
def quietPeriodQueries (delay : Nat) : List Nat -> List Nat
  | [] => []
  | [k] => [k + delay]
  | k :: k2 :: ks =>
      (if k + delay <= k2 then [k + delay] else []) ++ quietPeriodQueries delay (k2 :: ks)

/-- A run that starts with a pending timer scheduled by keystroke k agrees
with the declarative query list of k followed by the remaining keys. -/
theorem debounceRun_pending (delay : Nat) :
    forall (ks : List Nat) (k : Nat),
      debounceRun delay ks (some (k + delay)) = quietPeriodQueries delay (k :: ks) := by
  intro ks
  induction ks with
  | nil => intro k; rfl
  | cons k2 ks ih =>
      intro k
      rw [debounceRun, quietPeriodQueries, ih k2]

/-- C4: for every sequence of keystroke times, the debounced effect issues
exactly the queries of the quiet-period reading: one query 300 ms after
each keystroke not followed by another within 300 ms, and none for a
keystroke superseded within the 300 ms window. -/
theorem c4_debounce_quiet_periods (ks : List Nat) :
    debounceRun 300 ks none = quietPeriodQueries 300 ks := by
  cases ks with
  | nil => rfl
  | cons k ks => rw [debounceRun, debounceRun_pending 300 ks k]

/-- The status dropdown of the task list: all, or one status. -/
inductive StatusFilter where
  | all
  | only (s : TaskStatus)
deriving DecidableEq, Repr

/-- The priority dropdown of the task list: all, or one priority. -/
inductive PriorityFilter where
  | all
  | only (p : TaskPriority)
deriving DecidableEq, Repr

/-- The sort-field select of the task list (part_008 lines 248-252). -/
inductive SortField where
  | created_at
  | due_date
  | title
  | priority
  | status
deriving DecidableEq, Repr

/-- The sort direction toggle. -/
inductive SortDir where
  | asc
  | desc
deriving DecidableEq, Repr

/-- JS toLowerCase, as ASCII case folding. -/
def lowerStr (s : String) : String := String.mk (s.data.map Char.toLower)

/-- JS hay.toLowerCase().includes(needle.toLowerCase()): the
case-insensitive containment used by the task search. -/
def containsCI (hay needle : String) : Bool :=
  containsList (lowerStr needle).data (lowerStr hay).data

/-- The search predicate of applyFiltersAndSort (part_008 lines 104-110):
the title matches, or a present description matches. -/
def matchesSearch (q : String) (t : Task) : Bool :=
  containsCI t.title q ||
    (match t.description with
     | some d => containsCI d q
     | none => false)

/-- The combined filter (lines 104-120): the search filter applies only to
a nonempty query, the status and priority filters only when not all. -/
def matchesFilters (q : String) (sf : StatusFilter) (pf : PriorityFilter) (t : Task) : Bool :=
  (if q = "" then true else matchesSearch q t) &&
    (match sf with
     | StatusFilter.all => true
     | StatusFilter.only s => t.status == s) &&
    (match pf with
     | PriorityFilter.all => true
     | PriorityFilter.only p => t.priority == p)

/-- The priorityOrder map of the comparator (line 134). -/
def priorityOrder : TaskPriority -> Nat
  | TaskPriority.high => 3
  | TaskPriority.medium => 2
  | TaskPriority.low => 1

/-- The statusOrder map of the comparator (line 138). -/
def statusOrder : TaskStatus -> Nat
  | TaskStatus.pending => 1
  | TaskStatus.in_progress => 2
  | TaskStatus.completed => 3

/-- The numeric sort key of the comparator (lines 127-144): timestamps,
with a missing due date as 0, and the priority and status order maps. The
title field uses the lowercased string key instead. -/
def numericKey : SortField -> Task -> Nat
  | SortField.created_at, t => t.created_at
  | SortField.due_date, t =>
      match t.due_date with
      | some d => d
      | none => 0
  | SortField.priority, t => priorityOrder t.priority
  | SortField.status, t => statusOrder t.status
  | SortField.title, _ => 0

/-- The comparator of applyFiltersAndSort (lines 123-155) read as the
relation a-sorts-no-later-than-b: lowercased-title string comparison for
the title field, numeric key comparison otherwise, flipped for descending
order. -/
def taskLE (f : SortField) (dir : SortDir) (a b : Task) : Bool :=
  match f with
  | SortField.title =>
      match dir with
      | SortDir.asc => decide (lowerStr a.title <= lowerStr b.title)
      | SortDir.desc => decide (lowerStr b.title <= lowerStr a.title)
  | f0 =>
      match dir with
      | SortDir.asc => decide (numericKey f0 a <= numericKey f0 b)
      | SortDir.desc => decide (numericKey f0 b <= numericKey f0 a)

/-- applyFiltersAndSort (part_008 lines 100-158): filter by search, status
and priority, then sort by the selected field and direction. -/
def applyFiltersAndSort (q : String) (sf : StatusFilter) (pf : PriorityFilter)
    (f : SortField) (dir : SortDir) (ts : List Task) : List Task :=
  List.insertionSort (fun a b => taskLE f dir a b = true)
    (ts.filter (matchesFilters q sf pf))

/-- The empty needle is contained in every character list. -/
theorem containsList_nil (hay : List Char) : containsList [] hay = true := by
  cases hay <;> simp [containsList, startsWithList, List.isEmpty]

/-- Every string contains the empty query, case-insensitively. -/
theorem containsCI_empty (s : String) : containsCI s "" = true := by
  simpa [containsCI, lowerStr] using containsList_nil (lowerStr s).data

/-- The sort relation is total for every field and direction. -/
theorem taskLE_total (f : SortField) (dir : SortDir) (a b : Task) :
    taskLE f dir a b = true ∨ taskLE f dir b a = true := by
  cases f <;> cases dir <;> simp [taskLE] <;>
    first
      | exact Nat.le_total _ _
      | exact le_total _ _

/-- The sort relation is transitive for every field and direction. -/
theorem taskLE_trans (f : SortField) (dir : SortDir) (a b c : Task) :
    taskLE f dir a b = true -> taskLE f dir b c = true -> taskLE f dir a c = true := by
  cases f <;> cases dir <;> simp [taskLE] <;> intro h1 h2 <;>
    first
      | exact le_trans h1 h2
      | exact le_trans h2 h1

/-- The filter accepts exactly the tasks the claim describes: title or
description contains the query case-insensitively, and status and priority
agree with every non-all dropdown value. -/
theorem matchesFilters_iff (q : String) (sf : StatusFilter) (pf : PriorityFilter) (t : Task) :
    matchesFilters q sf pf t = true ↔
      ((containsCI t.title q = true ∨ ∃ d, t.description = some d ∧ containsCI d q = true) ∧
        (∀ s, sf = StatusFilter.only s -> t.status = s) ∧
        (∀ p, pf = PriorityFilter.only p -> t.priority = p)) := by
  have hdesc : (matchesSearch q t = true) ↔
      (containsCI t.title q = true ∨ ∃ d, t.description = some d ∧ containsCI d q = true) := by
    cases hd : t.description <;> simp [matchesSearch, hd]
  by_cases hq : q = ""
  · subst hq
    cases sf <;> cases pf <;>
      simp [matchesFilters, containsCI_empty, and_assoc]
  · cases sf <;> cases pf <;>
      simp [matchesFilters, hq, hdesc, and_assoc]

/-- C9: applyFiltersAndSort returns a permutation of exactly the tasks
whose title or description contains the query case-insensitively and whose
status and priority match the non-all filters, sorted by the selected
field in the selected direction (priority ordered high over medium over
low, status ordered pending, in progress, completed). -/
theorem c9_applyFiltersAndSort (q : String) (sf : StatusFilter) (pf : PriorityFilter)
    (f : SortField) (dir : SortDir) (ts : List Task) :
    (applyFiltersAndSort q sf pf f dir ts).Perm (ts.filter (matchesFilters q sf pf)) ∧
      List.Sorted (fun a b => taskLE f dir a b = true) (applyFiltersAndSort q sf pf f dir ts) ∧
      ∀ t : Task, t ∈ applyFiltersAndSort q sf pf f dir ts ↔
        (t ∈ ts ∧
          (containsCI t.title q = true ∨ ∃ d, t.description = some d ∧ containsCI d q = true) ∧
          (∀ s, sf = StatusFilter.only s -> t.status = s) ∧
          (∀ p, pf = PriorityFilter.only p -> t.priority = p)) := by
  haveI : IsTotal Task (fun a b => taskLE f dir a b = true) := ⟨taskLE_total f dir⟩
  haveI : IsTrans Task (fun a b => taskLE f dir a b = true) := ⟨taskLE_trans f dir⟩
  refine ⟨List.perm_insertionSort _ _, List.sorted_insertionSort _ _, ?_⟩
  intro t
  rw [applyFiltersAndSort, (List.perm_insertionSort _ _).mem_iff, List.mem_filter,
    matchesFilters_iff]

end TaskApp

